import Mathlib

/-!
# `ssh-agent-populate` (src/cli/SSHAgentPopulate.cpp)

A shallow embedding of `waitForQuitSignal` and
`SSHAgentPopulate::executeWithDatabase`.  The collaborators of the command
(command-line parser, database, entry settings, SSH agent, `sigwait`) are
gathered in a `World` record; the mutable state touched by the command (the
identities held by the agent and the signal mask of the calling thread) is a
`State`; every run yields its exit status, the state it leaves behind and the
ordered trace of the calls it made.
-/

namespace SSHAgentPopulate

/-! ## Data model -/

/-- An OpenSSH key, identified by its fingerprint. -/
structure OpenSSHKey where
  fingerprint : Nat
  deriving DecidableEq

/-- The KeeAgent settings read from an entry. -/
structure KeeAgentSettings where
  tag : Nat
  deriving DecidableEq

/-- A database entry. -/
structure Entry where
  tag : Nat
  deriving DecidableEq

/-- The constant `EXIT_SUCCESS` of `<cstdlib>`. -/
def EXIT_SUCCESS : Int := 0

/-- The constant `EXIT_FAILURE` of `<cstdlib>`. -/
def EXIT_FAILURE : Int := 1

/-! ## Signals (`<signal.h>`) -/

def SIGHUP : Nat := 1
def SIGINT : Nat := 2
def SIGQUIT : Nat := 3
def SIGTERM : Nat := 15

/-- A signal set: the finite set of the signal numbers it holds. -/
abbrev sigset_t := Finset Nat

def sigemptyset : sigset_t := ∅

def sigaddset (set : sigset_t) (signum : Nat) : sigset_t := insert signum set

/-- The `how` argument of `sigprocmask`. -/
inductive How where
  | SIG_BLOCK
  | SIG_UNBLOCK
  deriving DecidableEq

/-- Effect of `sigprocmask(how, &set, NULL)` on the mask of the calling thread. -/
def sigprocmask (how : How) (set : sigset_t) (mask : sigset_t) : sigset_t :=
  match how with
  | .SIG_BLOCK => mask ∪ set
  | .SIG_UNBLOCK => mask \ set

/-! ## Output channels and the trace of calls -/

/-- The text streams of `Utils`. -/
inductive Channel where
  | STDOUT
  | STDERR
  | DEVNULL
  deriving DecidableEq

/-- One observable step of a run, in program order. -/
inductive Event where
  /-- The call `stream << line << endl` -/
  | write (ch : Channel) (line : String)
  /-- The call `sshAgent()->isEnabled()` -/
  | isEnabled
  /-- The call `QObject::connect(sshAgent(), &SSHAgent::error, ...)` -/
  | connectError
  /-- The call `sshAgent()->databaseUnlocked(database)` -/
  | databaseUnlocked
  /-- The agent emits its `error` signal -/
  | emitError (message : String)
  /-- The call `args.at(i)` -/
  | argsAt (i : Nat)
  /-- The call `database->rootGroup()->findEntryByPath(path)` -/
  | findEntryByPath (path : String)
  /-- The call `settings.fromEntry(entry)` -/
  | fromEntry
  /-- The call `settings.toOpenSSHKey(entry, key, true)` -/
  | toOpenSSHKey
  /-- An identity is offered to the agent under an owner id -/
  | addIdentity (key : OpenSSHKey) (owner : Nat)
  /-- The call `sshAgent()->errorString()` -/
  | errorString
  /-- The call `sigprocmask(SIG_BLOCK, &set, NULL)` -/
  | sigprocmaskBlock
  /-- The call `sigwait(&set, &sig)` with the value it returned -/
  | sigwait (result : Int)
  /-- The call `sigprocmask(SIG_UNBLOCK, &set, NULL)` -/
  | sigprocmaskUnblock
  /-- The call `sshAgent()->databaseLocked(database)` -/
  | databaseLocked
  deriving DecidableEq

/-- Steps that add identities to the agent. -/
def Event.isAdd : Event → Bool
  | .addIdentity _ _ => true
  | .databaseUnlocked => true
  | _ => false

/-- Steps that are calls on the SSH agent collaborator. -/
def Event.isAgentCall : Event → Bool
  | .isEnabled => true
  | .connectError => true
  | .databaseUnlocked => true
  | .addIdentity _ _ => true
  | .errorString => true
  | .databaseLocked => true
  | _ => false

/-- The lines a trace wrote on a channel, in order. -/
def linesOn (ch : Channel) : List Event → List String
  | [] => []
  | .write c line :: rest => if c = ch then line :: linesOn ch rest else linesOn ch rest
  | _ :: rest => linesOn ch rest

/-! ## The collaborators -/

/-- Everything the command reads from its surroundings during one call. -/
structure World where
  /-- The call `parser->isSet(Command::QuietOption)` -/
  quiet : Bool
  /-- The call `parser->positionalArguments()` -/
  args : List String
  /-- The call `sshAgent()->isEnabled()` -/
  isEnabled : Bool
  /-- The call `database->uuid()` -/
  uuid : Nat
  /-- The call `database->rootGroup()->findEntryByPath(path)` -/
  findEntryByPath : String → Option Entry
  /-- The call `settings.fromEntry(entry)`: the settings read, if any -/
  fromEntry : Entry → Option KeeAgentSettings
  /-- The call `settings.toOpenSSHKey(entry, key, true)`: the key produced, if any -/
  toOpenSSHKey : KeeAgentSettings → Entry → Option OpenSSHKey
  /-- The identities of the database configured to be added when it is opened -/
  autoLoad : List (OpenSSHKey × KeeAgentSettings)
  /-- Whether the agent accepts the registration of a key -/
  agentAccepts : OpenSSHKey → Bool
  /-- The call `sshAgent()->errorString()` -/
  errorString : String
  /-- The value `sigwait` returns -/
  sigwaitResult : Int

/-- The identities held by the agent, each with the id of its owner. -/
abbrev Agent := List (OpenSSHKey × Nat)

/-- The state a call reads and updates. -/
structure State where
  agent : Agent
  sigmask : sigset_t

/-- What a call leaves behind.  `status = none` stands for the out-of-range
    access `args.at(1)` on a list that has no second element. -/
structure Run where
  status : Option Int
  state : State
  trace : List Event

/-! ## The SSH agent -/

/-- Modelled from the spec: `SSHAgent::addIdentity` (sshagent/SSHAgent.cpp is
    not among the sources).  `addIdentity(key, settings, ownerId) -> bool`
    registers the key under the given owner id when the agent accepts it and
    leaves the agent unchanged otherwise. -/
def addIdentity (w : World) (key : OpenSSHKey) (_settings : KeeAgentSettings) (owner : Nat)
    (agent : Agent) : Bool × Agent :=
  if w.agentAccepts key then (true, agent ++ [(key, owner)]) else (false, agent)

/-- Modelled from the spec: `SSHAgent::databaseUnlocked` (sshagent/SSHAgent.cpp
    is not among the sources).  For each identity of the auto-load set it
    attempts to register it with the agent under the id of the database; a failed
    registration surfaces the error text of the agent on the error-notification
    channel, whose connected slot is `onError`. -/
def databaseUnlocked (w : World) (onError : String → List Event) :
    List (OpenSSHKey × KeeAgentSettings) → Agent → Agent × List Event
  | [], agent => (agent, [])
  | (key, settings) :: rest, agent =>
    let added := addIdentity w key settings w.uuid agent
    let later := databaseUnlocked w onError rest added.2
    (later.1,
      Event.addIdentity key w.uuid ::
        ((if added.1 then [] else Event.emitError w.errorString :: onError w.errorString)
          ++ later.2))

/-- Modelled from the spec: `SSHAgent::databaseLocked` (sshagent/SSHAgent.cpp is
    not among the sources): the bulk removal keyed by owning session, which
    removes every identity registered under the id of the database. -/
def databaseLocked (w : World) (agent : Agent) : Agent :=
  agent.filter (fun identity => identity.2 ≠ w.uuid)

/-! ## `waitForQuitSignal` -/

/-- The set built at lines 40-45. -/
def quitSignals : sigset_t :=
  sigaddset (sigaddset (sigaddset (sigaddset sigemptyset SIGQUIT) SIGINT) SIGTERM) SIGHUP

/-- Result of `waitForQuitSignal`: the value returned, the signal mask it
    leaves and the calls it made. -/
structure WaitResult where
  ret : Bool
  sigmask : sigset_t
  trace : List Event

/-- The function `static bool waitForQuitSignal()`, run with the signal mask `mask` while
    `sigwait` returns `sigwaitResult`. -/
def waitForQuitSignal (sigwaitResult : Int) (mask : sigset_t) : WaitResult :=
  let set := quitSignals
  let blocked := sigprocmask .SIG_BLOCK set mask
  let ret := sigwaitResult != -1
  let unblocked := sigprocmask .SIG_UNBLOCK set blocked
  { ret := ret
    sigmask := unblocked
    trace := [.sigprocmaskBlock, .sigwait sigwaitResult, .sigprocmaskUnblock] }

/-! ## `SSHAgentPopulate::executeWithDatabase` -/

/-- The stream bound to `out` at line 56. -/
def outChannel (w : World) : Channel :=
  if w.quiet then .DEVNULL else .STDOUT

def msgNotEnabled : String := "The SSH agent is not enabled."
def msgNotFound (entryPath : String) : String :=
  "Could not find entry with path " ++ entryPath ++ "."
def msgNoKey : String := "Could not retrieve the OpenSSH key associated to the entry."
def msgAddFailed (message : String) : String :=
  "Could not add OpenSSH key to the agent: " ++ message
def msgWaiting : String := "Key(s) added to SSH agent, waiting for exit signal..."
def msgWaitFailed : String := "Failed to wait for signal"
def msgRemoved : String := "Key(s) removed from SSH agent"

/-- The lambda connected to `SSHAgent::error` at lines 67-69. -/
def errorSlot (message : String) : List Event :=
  [.write .STDERR (msgAddFailed message)]

/-- Lines 92-103: announce, wait, clean up.  `before` is the trace so far. -/
def waitAndCleanup (w : World) (st : State) (before : List Event) : Run :=
  let out := outChannel w
  let waited := waitForQuitSignal w.sigwaitResult st.sigmask
  let failed := !waited.ret
  { status := some (if failed then EXIT_FAILURE else EXIT_SUCCESS)
    state := { agent := databaseLocked w st.agent, sigmask := waited.sigmask }
    trace := before ++ [.write out msgWaiting] ++ waited.trace
      ++ (if failed then [.write .STDERR msgWaitFailed] else [])
      ++ [.databaseLocked, .write out msgRemoved] }

/-- The function `int SSHAgentPopulate::executeWithDatabase(database, parser)`. -/
def executeWithDatabase (w : World) (st : State) : Run :=
  let err := Channel.STDERR
  let args := w.args
  if !w.isEnabled then
    { status := some EXIT_FAILURE, state := st
      trace := [.isEnabled, .write err msgNotEnabled] }
  else if args.length = 1 then
    let unlocked := databaseUnlocked w errorSlot w.autoLoad st.agent
    waitAndCleanup w { st with agent := unlocked.1 }
      ([.isEnabled, .connectError, .databaseUnlocked] ++ unlocked.2)
  else
    match args[1]? with
    | none => { status := none, state := st, trace := [.isEnabled, .argsAt 1] }
    | some entryPath =>
      match w.findEntryByPath entryPath with
      | none =>
        { status := some EXIT_FAILURE, state := st
          trace := [.isEnabled, .argsAt 1, .findEntryByPath entryPath,
            .write err (msgNotFound entryPath)] }
      | some entry =>
        match w.fromEntry entry with
        | none =>
          { status := some EXIT_FAILURE, state := st
            trace := [.isEnabled, .argsAt 1, .findEntryByPath entryPath, .fromEntry,
              .write err msgNoKey] }
        | some settings =>
          match w.toOpenSSHKey settings entry with
          | none =>
            { status := some EXIT_FAILURE, state := st
              trace := [.isEnabled, .argsAt 1, .findEntryByPath entryPath, .fromEntry,
                .toOpenSSHKey, .write err msgNoKey] }
          | some key =>
            let added := addIdentity w key settings w.uuid st.agent
            if !added.1 then
              { status := some EXIT_FAILURE, state := { st with agent := added.2 }
                trace := [.isEnabled, .argsAt 1, .findEntryByPath entryPath, .fromEntry,
                  .toOpenSSHKey, .addIdentity key w.uuid, .errorString,
                  .write err (msgAddFailed w.errorString)] }
            else
              waitAndCleanup w { st with agent := added.2 }
                [.isEnabled, .argsAt 1, .findEntryByPath entryPath, .fromEntry,
                  .toOpenSSHKey, .addIdentity key w.uuid]

/-! ## The paths of a run -/

/-- The paths through `executeWithDatabase`: each constructor is one way through
    the branches of lines 61-91, with the conditions under which it is taken and
    the run it yields. -/
inductive Path (w : World) (st : State) : Run → Prop where
  | disabled : w.isEnabled = false →
      Path w st ⟨some EXIT_FAILURE, st, [.isEnabled, .write .STDERR msgNotEnabled]⟩
  | autoLoad : w.isEnabled = true → w.args.length = 1 →
      Path w st (waitAndCleanup w
        { st with agent := (databaseUnlocked w errorSlot w.autoLoad st.agent).1 }
        ([.isEnabled, .connectError, .databaseUnlocked]
          ++ (databaseUnlocked w errorSlot w.autoLoad st.agent).2))
  | outOfRange : w.isEnabled = true → w.args = [] →
      Path w st ⟨none, st, [.isEnabled, .argsAt 1]⟩
  | notFound (entryPath : String) : w.isEnabled = true → 2 ≤ w.args.length →
      w.args[1]? = some entryPath → w.findEntryByPath entryPath = none →
      Path w st ⟨some EXIT_FAILURE, st,
        [.isEnabled, .argsAt 1, .findEntryByPath entryPath,
          .write .STDERR (msgNotFound entryPath)]⟩
  | noSettings (entryPath : String) (entry : Entry) : w.isEnabled = true →
      2 ≤ w.args.length → w.args[1]? = some entryPath →
      w.findEntryByPath entryPath = some entry → w.fromEntry entry = none →
      Path w st ⟨some EXIT_FAILURE, st,
        [.isEnabled, .argsAt 1, .findEntryByPath entryPath, .fromEntry,
          .write .STDERR msgNoKey]⟩
  | noKey (entryPath : String) (entry : Entry) (settings : KeeAgentSettings) :
      w.isEnabled = true → 2 ≤ w.args.length → w.args[1]? = some entryPath →
      w.findEntryByPath entryPath = some entry → w.fromEntry entry = some settings →
      w.toOpenSSHKey settings entry = none →
      Path w st ⟨some EXIT_FAILURE, st,
        [.isEnabled, .argsAt 1, .findEntryByPath entryPath, .fromEntry, .toOpenSSHKey,
          .write .STDERR msgNoKey]⟩
  | addFailed (entryPath : String) (entry : Entry) (settings : KeeAgentSettings)
      (key : OpenSSHKey) :
      w.isEnabled = true → 2 ≤ w.args.length → w.args[1]? = some entryPath →
      w.findEntryByPath entryPath = some entry → w.fromEntry entry = some settings →
      w.toOpenSSHKey settings entry = some key → w.agentAccepts key = false →
      Path w st ⟨some EXIT_FAILURE, st,
        [.isEnabled, .argsAt 1, .findEntryByPath entryPath, .fromEntry, .toOpenSSHKey,
          .addIdentity key w.uuid, .errorString, .write .STDERR (msgAddFailed w.errorString)]⟩
  | added (entryPath : String) (entry : Entry) (settings : KeeAgentSettings)
      (key : OpenSSHKey) :
      w.isEnabled = true → 2 ≤ w.args.length → w.args[1]? = some entryPath →
      w.findEntryByPath entryPath = some entry → w.fromEntry entry = some settings →
      w.toOpenSSHKey settings entry = some key → w.agentAccepts key = true →
      Path w st (waitAndCleanup w { st with agent := st.agent ++ [(key, w.uuid)] }
        [.isEnabled, .argsAt 1, .findEntryByPath entryPath, .fromEntry, .toOpenSSHKey,
          .addIdentity key w.uuid])

/-! ## Reading the signal mask off a trace -/

/-- The signal mask in force after the steps of a trace, starting from `mask`. -/
def maskAfter (mask : sigset_t) : List Event → sigset_t
  | [] => mask
  | .sigprocmaskBlock :: rest => maskAfter (sigprocmask .SIG_BLOCK quitSignals mask) rest
  | .sigprocmaskUnblock :: rest => maskAfter (sigprocmask .SIG_UNBLOCK quitSignals mask) rest
  | _ :: rest => maskAfter mask rest

/-! ## Sample collaborators -/

/-- A world with an enabled agent that accepts every key except the one with
    fingerprint 13, a database holding one entry at `Servers/db01`, and a
    `sigwait` that returns on a signal. -/
def sampleWorld : World where
  quiet := false
  args := ["db.kdbx", "Servers/db01"]
  isEnabled := true
  uuid := 7
  findEntryByPath := fun path => if path = "Servers/db01" then some ⟨1⟩ else none
  fromEntry := fun _ => some ⟨0⟩
  toOpenSSHKey := fun _ entry => some ⟨entry.tag⟩
  autoLoad := []
  agentAccepts := fun key => key.fingerprint != 13
  errorString := "agent refused operation"
  sigwaitResult := 0

/-- A calling thread with no signal blocked and an agent holding no identity. -/
def freshState : State := { agent := [], sigmask := ∅ }

/-- The sample world run without an entry path, on a database whose auto-load
    set holds two identities; the agent refuses the second one. -/
def refusingWorld : World :=
  { sampleWorld with args := ["db.kdbx"], autoLoad := [(⟨1⟩, ⟨0⟩), (⟨13⟩, ⟨0⟩)] }

/-- The sample world on a database whose entry at `Servers/db01` carries the key
    the agent refuses. -/
def refusedEntryWorld : World :=
  { sampleWorld with toOpenSSHKey := fun _ _ => some ⟨13⟩ }

/-- The sample world asked for an entry path that matches no entry. -/
def missingWorld : World :=
  { sampleWorld with args := ["db.kdbx", "Servers/none"] }

/-! ## Auxiliary facts -/

theorem run_disabled (w : World) (st : State) (h : w.isEnabled = false) :
    executeWithDatabase w st =
      ⟨some EXIT_FAILURE, st, [.isEnabled, .write .STDERR msgNotEnabled]⟩ := by
  simp [executeWithDatabase, h]

theorem linesOn_append (ch : Channel) (a b : List Event) :
    linesOn ch (a ++ b) = linesOn ch a ++ linesOn ch b := by
  induction a with
  | nil => rfl
  | cons e rest ih =>
    cases e <;> simp [linesOn, ih]
    split <;> simp

theorem outChannel_ne_stderr (w : World) : outChannel w ≠ Channel.STDERR := by
  unfold outChannel; split <;> decide

theorem waitForQuitSignal_mask (r : Int) (mask : sigset_t) :
    (waitForQuitSignal r mask).sigmask = mask \ quitSignals := by
  simp [waitForQuitSignal, sigprocmask, Finset.union_sdiff_right]

/-- Every step of `databaseUnlocked` (with the slot of line 67 connected) offers
    an identity under the id of the database, emits the error of the agent, or writes the
    add-failure line on the error stream. -/
theorem databaseUnlocked_trace (w : World) (l : List (OpenSSHKey × KeeAgentSettings))
    (agent : Agent) :
    ∀ e ∈ (databaseUnlocked w errorSlot l agent).2,
      (∃ key, e = .addIdentity key w.uuid) ∨ e = .emitError w.errorString
        ∨ e = .write .STDERR (msgAddFailed w.errorString) := by
  induction l generalizing agent with
  | nil => simp [databaseUnlocked]
  | cons id rest ih =>
    obtain ⟨key, settings⟩ := id
    intro e he
    simp only [databaseUnlocked, List.mem_cons, List.mem_append] at he
    rcases he with he | he | he
    · exact Or.inl ⟨key, he⟩
    · split at he
      · simp at he
      · simp [errorSlot] at he
        rcases he with he | he
        · exact Or.inr (Or.inl he)
        · exact Or.inr (Or.inr he)
    · exact ih _ e he

theorem waitAndCleanup_status (w : World) (st : State) (before : List Event) :
    (waitAndCleanup w st before).status =
      some (if (waitForQuitSignal w.sigwaitResult st.sigmask).ret then EXIT_SUCCESS
        else EXIT_FAILURE) := by
  simp only [waitAndCleanup]
  cases (waitForQuitSignal w.sigwaitResult st.sigmask).ret <;> rfl

theorem waitAndCleanup_trace (w : World) (st : State) (before : List Event) :
    (waitAndCleanup w st before).trace =
      (before ++ [.write (outChannel w) msgWaiting])
        ++ [.sigprocmaskBlock, .sigwait w.sigwaitResult, .sigprocmaskUnblock]
        ++ ((if (waitForQuitSignal w.sigwaitResult st.sigmask).ret then []
              else [.write .STDERR msgWaitFailed])
            ++ [.databaseLocked, .write (outChannel w) msgRemoved]) := by
  simp only [waitAndCleanup]
  cases h : (waitForQuitSignal w.sigwaitResult st.sigmask).ret <;>
    simp [waitForQuitSignal]

theorem executeWithDatabase_path (w : World) (st : State) :
    Path w st (executeWithDatabase w st) := by
  unfold executeWithDatabase
  cases hen : w.isEnabled
  · simpa using Path.disabled hen
  · by_cases hlen : w.args.length = 1
    · simpa [hlen] using Path.autoLoad hen hlen
    · simp only [Bool.not_true, Bool.false_eq_true, if_false, hlen]
      cases hget : w.args[1]? with
      | none =>
        have hnil : w.args = [] := by
          match hw : w.args with
          | [] => rfl
          | [_] => simp [hw] at hlen
          | _ :: _ :: _ => simp [hw] at hget
        simpa using Path.outOfRange hen hnil
      | some entryPath =>
        have h2 : 2 ≤ w.args.length := by
          match hw : w.args with
          | [] => simp [hw] at hget
          | [_] => simp [hw] at hlen
          | _ :: _ :: _ => simp
        simp only
        cases hfind : w.findEntryByPath entryPath with
        | none => simpa using Path.notFound entryPath hen h2 hget hfind
        | some entry =>
          simp only
          cases hfrom : w.fromEntry entry with
          | none => simpa using Path.noSettings entryPath entry hen h2 hget hfind hfrom
          | some settings =>
            simp only
            cases hkey : w.toOpenSSHKey settings entry with
            | none => simpa using Path.noKey entryPath entry settings hen h2 hget hfind hfrom hkey
            | some key =>
              simp only
              cases hacc : w.agentAccepts key
              · simpa [addIdentity, hacc] using
                  Path.addFailed entryPath entry settings key hen h2 hget hfind hfrom hkey hacc
              · simpa [addIdentity, hacc] using
                  Path.added entryPath entry settings key hen h2 hget hfind hfrom hkey hacc

theorem unlocked_not_locked (w : World) (l : List (OpenSSHKey × KeeAgentSettings))
    (agent : Agent) (e : Event) (he : e ∈ (databaseUnlocked w errorSlot l agent).2) :
    e ≠ .databaseLocked ∧ e ≠ .sigprocmaskBlock ∧ e ≠ .sigprocmaskUnblock
      ∧ (∀ r, e ≠ .sigwait r) ∧ (∀ line, e ≠ .write (outChannel w) line)
      ∧ (∀ path, e ≠ .findEntryByPath path) ∧ (∀ i, e ≠ .argsAt i) := by
  rcases databaseUnlocked_trace w l agent e he with ⟨key, h⟩ | h | h <;> subst h <;>
    simp [outChannel_ne_stderr, (outChannel_ne_stderr w).symm]

theorem stderr_waitAndCleanup (w : World) (st : State) (before : List Event) :
    linesOn .STDERR (waitAndCleanup w st before).trace =
      linesOn .STDERR before ++
        (if (waitForQuitSignal w.sigwaitResult st.sigmask).ret then [] else [msgWaitFailed]) := by
  rw [waitAndCleanup_trace]
  cases (waitForQuitSignal w.sigwaitResult st.sigmask).ret <;>
    simp [linesOn_append, linesOn, outChannel_ne_stderr]

theorem databaseUnlocked_congr (w1 w2 : World) (onError : String → List Event)
    (hacc : w1.agentAccepts = w2.agentAccepts) (hid : w1.uuid = w2.uuid)
    (herr : w1.errorString = w2.errorString)
    (l : List (OpenSSHKey × KeeAgentSettings)) (agent : Agent) :
    databaseUnlocked w1 onError l agent = databaseUnlocked w2 onError l agent := by
  induction l generalizing agent with
  | nil => rfl
  | cons id rest ih =>
    obtain ⟨key, settings⟩ := id
    simp only [databaseUnlocked, addIdentity, ih, hacc, hid, herr]

theorem stderr_quiet (w : World) (q : Bool) (st : State) :
    linesOn .STDERR (executeWithDatabase { w with quiet := q } st).trace
        = linesOn .STDERR (executeWithDatabase w st).trace
      ∧ (executeWithDatabase { w with quiet := q } st).status = (executeWithDatabase w st).status := by
  unfold executeWithDatabase
  cases hen : w.isEnabled
  · simp
  · by_cases hlen : w.args.length = 1
    · simp only [hlen, stderr_waitAndCleanup, waitAndCleanup_status, Bool.not_true,
        Bool.false_eq_true, if_false, if_true, and_true]
      rw [databaseUnlocked_congr _ w errorSlot] <;> rfl
    · simp only [Bool.not_true, Bool.false_eq_true, if_false, hlen]
      cases hget : w.args[1]? with
      | none => simp
      | some entryPath =>
        simp only
        cases hfind : w.findEntryByPath entryPath with
        | none => simp
        | some entry =>
          simp only
          cases hfrom : w.fromEntry entry with
          | none => simp
          | some settings =>
            simp only
            cases hkey : w.toOpenSSHKey settings entry with
            | none => simp
            | some key =>
              simp only
              cases hacc : w.agentAccepts key <;>
                simp [addIdentity, hacc, stderr_waitAndCleanup, waitAndCleanup_status]

theorem mem_waitAndCleanup_trace (w : World) (st : State) (before : List Event) (e : Event) :
    e ∈ (waitAndCleanup w st before).trace →
      e ∈ before ∨ e = .write (outChannel w) msgWaiting ∨ e = .sigprocmaskBlock
        ∨ e = .sigwait w.sigwaitResult ∨ e = .sigprocmaskUnblock
        ∨ e = .write .STDERR msgWaitFailed ∨ e = .databaseLocked
        ∨ e = .write (outChannel w) msgRemoved := by
  rw [waitAndCleanup_trace]
  cases (waitForQuitSignal w.sigwaitResult st.sigmask).ret <;> (simp <;> tauto)

theorem before_sub_waitAndCleanup_trace (w : World) (st : State) (before : List Event)
    (e : Event) (he : e ∈ before) : e ∈ (waitAndCleanup w st before).trace := by
  rw [waitAndCleanup_trace]
  simp [he]

theorem split_in_front {A B pre post : List Event} {e : Event}
    (h : A ++ B = pre ++ e :: post) (hB : e ∉ B) : ∃ rest, A = pre ++ e :: rest := by
  rcases List.append_eq_append_iff.1 h with ⟨a, _, hb⟩ | ⟨c, ha, hc⟩
  · exact absurd (by rw [hb]; simp) hB
  · cases c with
    | nil =>
      simp at hc
      exact absurd (by rw [← hc]; simp) hB
    | cons x c =>
      simp at hc
      exact ⟨c, by rw [ha, hc.1]⟩

theorem maskAfter_quiet (mask : sigset_t) (t : List Event)
    (h : ∀ e ∈ t, e ≠ .sigprocmaskBlock ∧ e ≠ .sigprocmaskUnblock) : maskAfter mask t = mask := by
  induction t with
  | nil => rfl
  | cons e rest ih =>
    have he := h e (by simp)
    have hrest := ih (fun x hx => h x (by simp [hx]))
    cases e <;> simp_all [maskAfter]

theorem waitAndCleanup_shape (w : World) (st : State) (before : List Event) :
    ∃ B, (waitAndCleanup w st before).trace = before ++ B ∧ ∀ e ∈ B, e.isAdd = false := by
  refine ⟨[.write (outChannel w) msgWaiting, .sigprocmaskBlock, .sigwait w.sigwaitResult,
      .sigprocmaskUnblock]
    ++ ((if (waitForQuitSignal w.sigwaitResult st.sigmask).ret then []
          else [.write .STDERR msgWaitFailed])
        ++ [.databaseLocked, .write (outChannel w) msgRemoved]), ?_, ?_⟩
  · rw [waitAndCleanup_trace]; simp
  · cases (waitForQuitSignal w.sigwaitResult st.sigmask).ret <;> simp [Event.isAdd]

/-- Every run splits into a provisioning part that never touches the signal
    mask and a remainder that adds no identity. -/
theorem trace_shape (w : World) (st : State) :
    ∃ A B, (executeWithDatabase w st).trace = A ++ B
      ∧ (∀ e ∈ A, e ≠ .sigprocmaskBlock ∧ e ≠ .sigprocmaskUnblock)
      ∧ (∀ e ∈ B, e.isAdd = false) := by
  have hp := executeWithDatabase_path w st
  generalize executeWithDatabase w st = r at hp
  cases hp with
  | disabled h => exact ⟨_, [], (List.append_nil _).symm, by simp, by simp⟩
  | outOfRange h1 h2 => exact ⟨_, [], (List.append_nil _).symm, by simp, by simp⟩
  | notFound p h1 h2 h3 h4 => exact ⟨_, [], (List.append_nil _).symm, by simp, by simp⟩
  | noSettings p e h1 h2 h3 h4 h5 => exact ⟨_, [], (List.append_nil _).symm, by simp, by simp⟩
  | noKey p e s h1 h2 h3 h4 h5 h6 => exact ⟨_, [], (List.append_nil _).symm, by simp, by simp⟩
  | addFailed p e s k h1 h2 h3 h4 h5 h6 h7 =>
    exact ⟨_, [], (List.append_nil _).symm, by simp, by simp⟩
  | added p e s k h1 h2 h3 h4 h5 h6 h7 =>
    obtain ⟨B, hB, hno⟩ := waitAndCleanup_shape w
      { st with agent := st.agent ++ [(k, w.uuid)] }
      [.isEnabled, .argsAt 1, .findEntryByPath p, .fromEntry, .toOpenSSHKey,
        .addIdentity k w.uuid]
    exact ⟨_, B, hB, by simp, hno⟩
  | autoLoad h1 h2 =>
    obtain ⟨B, hB, hno⟩ := waitAndCleanup_shape w
      { st with agent := (databaseUnlocked w errorSlot w.autoLoad st.agent).1 }
      ([.isEnabled, .connectError, .databaseUnlocked]
        ++ (databaseUnlocked w errorSlot w.autoLoad st.agent).2)
    refine ⟨_, B, hB, ?_, hno⟩
    intro e he
    simp only [List.mem_append, List.mem_cons, List.mem_singleton, List.not_mem_nil,
      or_false] at he
    rcases he with (he | he | he) | he
    any_goals (subst he; simp)
    have := unlocked_not_locked w _ _ e he
    exact ⟨this.2.1, this.2.2.1⟩

/-- On the auto-load branch (lines 66-71) the exit status is set by the wait
    alone, whatever the agent answered to the registrations. -/
theorem autoLoad_status (w : World) (st : State) (hen : w.isEnabled = true)
    (hlen : w.args.length = 1) :
    (executeWithDatabase w st).status =
      some (if (waitForQuitSignal w.sigwaitResult st.sigmask).ret then EXIT_SUCCESS
        else EXIT_FAILURE) := by
  simp [executeWithDatabase, hen, hlen, waitAndCleanup_status]

/-! ## The claims -/

/-- Claim C1.  Whenever the status line of line 92 was written, the trace reads
    `pre ++ [SIG_BLOCK, sigwait, SIG_UNBLOCK] ++ post` where `pre` holds no call of
    `databaseLocked` (and no earlier return from the wait) and `post` holds exactly
    one, for either value returned by `waitForQuitSignal`; the exit status is
    `EXIT_SUCCESS` exactly when `waitForQuitSignal` returned `true`.  With no entry
    path and an empty auto-load set the run is the full wait-and-cleanup sequence
    and ends in `EXIT_SUCCESS` when the wait succeeds. -/
theorem cleanup_once_after_wait (w : World) (st : State) :
    (Event.write (outChannel w) msgWaiting ∈ (executeWithDatabase w st).trace →
      ∃ pre post,
        (executeWithDatabase w st).trace =
          pre ++ [.sigprocmaskBlock, .sigwait w.sigwaitResult, .sigprocmaskUnblock] ++ post
        ∧ (∀ e ∈ pre, e ≠ .databaseLocked ∧ e ≠ .sigprocmaskUnblock)
        ∧ post.count .databaseLocked = 1
        ∧ ((executeWithDatabase w st).status = some EXIT_SUCCESS ↔
            (waitForQuitSignal w.sigwaitResult st.sigmask).ret = true))
    ∧ (w.isEnabled = true → w.args.length = 1 → w.autoLoad = [] →
        (executeWithDatabase w st).trace =
          [.isEnabled, .connectError, .databaseUnlocked, .write (outChannel w) msgWaiting,
            .sigprocmaskBlock, .sigwait w.sigwaitResult, .sigprocmaskUnblock]
          ++ (if (waitForQuitSignal w.sigwaitResult st.sigmask).ret then []
                else [.write .STDERR msgWaitFailed])
          ++ [.databaseLocked, .write (outChannel w) msgRemoved]
        ∧ ((waitForQuitSignal w.sigwaitResult st.sigmask).ret = true →
            (executeWithDatabase w st).status = some EXIT_SUCCESS)) := by
  have hp := executeWithDatabase_path w st
  generalize executeWithDatabase w st = r at hp
  have hne := outChannel_ne_stderr w
  have hwait : ∀ (st2 : State) (before : List Event), st2.sigmask = st.sigmask →
      (∀ e ∈ before, e ≠ .databaseLocked ∧ e ≠ .sigprocmaskUnblock) →
      ∃ pre post,
        (waitAndCleanup w st2 before).trace =
          pre ++ [.sigprocmaskBlock, .sigwait w.sigwaitResult, .sigprocmaskUnblock] ++ post
        ∧ (∀ e ∈ pre, e ≠ .databaseLocked ∧ e ≠ .sigprocmaskUnblock)
        ∧ post.count .databaseLocked = 1
        ∧ ((waitAndCleanup w st2 before).status = some EXIT_SUCCESS ↔
            (waitForQuitSignal w.sigwaitResult st.sigmask).ret = true) := by
    intro st2 before hmask hbefore
    refine ⟨before ++ [.write (outChannel w) msgWaiting], _,
      waitAndCleanup_trace w st2 before, ?_, ?_, ?_⟩
    · intro e he
      rcases List.mem_append.1 he with he | he
      · exact hbefore e he
      · simp at he; subst he; simp
    · cases (waitForQuitSignal w.sigwaitResult st2.sigmask).ret <;> simp
    · rw [waitAndCleanup_status, hmask]
      cases (waitForQuitSignal w.sigwaitResult st.sigmask).ret <;>
        simp [EXIT_SUCCESS, EXIT_FAILURE]
  constructor
  · intro hmem
    cases hp with
    | disabled h => simp [hne] at hmem
    | outOfRange h1 h2 => simp at hmem
    | notFound p h1 h2 h3 h4 => simp [hne] at hmem
    | noSettings p e h1 h2 h3 h4 h5 => simp [hne] at hmem
    | noKey p e s h1 h2 h3 h4 h5 h6 => simp [hne] at hmem
    | addFailed p e s k h1 h2 h3 h4 h5 h6 h7 => simp [hne] at hmem
    | autoLoad h1 h2 =>
      apply hwait _ _ rfl
      intro e he
      simp only [List.mem_append, List.mem_cons, List.mem_singleton, List.not_mem_nil,
        or_false] at he
      rcases he with (he | he | he) | he
      · subst he; simp
      · subst he; simp
      · subst he; simp
      · have := unlocked_not_locked w _ _ e he
        exact ⟨this.1, this.2.2.1⟩
    | added p e s k h1 h2 h3 h4 h5 h6 h7 =>
      apply hwait _ _ rfl
      intro e he
      simp only [List.mem_cons, List.mem_singleton, List.not_mem_nil, or_false] at he
      rcases he with he | he | he | he | he | he <;> subst he <;> simp
  · intro hen hlen hauto
    cases hp with
    | disabled h => simp [hen] at h
    | outOfRange h1 h2 => simp [h2] at hlen
    | notFound p h1 h2 h3 h4 => omega
    | noSettings p e h1 h2 h3 h4 h5 => omega
    | noKey p e s h1 h2 h3 h4 h5 h6 => omega
    | addFailed p e s k h1 h2 h3 h4 h5 h6 h7 => omega
    | added p e s k h1 h2 h3 h4 h5 h6 h7 => omega
    | autoLoad h1 h2 =>
      rw [waitAndCleanup_trace, waitAndCleanup_status, hauto]
      refine ⟨by simp [databaseUnlocked], ?_⟩
      intro hret
      simp [hret]

/-- Claim C1 at the sample world (entry path given) and at the sample world run
    without entry path on an empty auto-load set. -/
theorem cleanup_once_after_wait_witness :
    Event.write (outChannel sampleWorld) msgWaiting
        ∈ (executeWithDatabase sampleWorld freshState).trace
    ∧ ((executeWithDatabase sampleWorld freshState).status = some EXIT_SUCCESS ↔
        (waitForQuitSignal sampleWorld.sigwaitResult freshState.sigmask).ret = true)
    ∧ (executeWithDatabase { sampleWorld with args := ["db.kdbx"] } freshState).status
        = some EXIT_SUCCESS :=
  ⟨by decide,
    match (cleanup_once_after_wait sampleWorld freshState).1 (by decide) with
    | ⟨_, _, _, _, _, hstatus⟩ => hstatus,
    ((cleanup_once_after_wait { sampleWorld with args := ["db.kdbx"] } freshState).2
      rfl rfl rfl).2 rfl⟩

/-- Claim C2 against the code.  Run without entry path on an auto-load set of two
    identities whose second registration the agent refuses, with a wait that
    returns on a signal: the add-failure line is written on the error stream,
    the waiting line follows, `databaseLocked` runs after the wait and the agent
    holds no identity on return, but the exit status is `EXIT_SUCCESS`, not
    `EXIT_FAILURE`.  The single-entry branch (lines 87-90), given an entry whose
    key the agent refuses, writes the same line and returns `EXIT_FAILURE`
    without waiting. -/
theorem autoLoad_failure_exit_success :
    refusingWorld.args.length = 1
    ∧ refusingWorld.autoLoad[1]? = some (⟨13⟩, ⟨0⟩)
    ∧ refusingWorld.agentAccepts ⟨13⟩ = false
    ∧ (executeWithDatabase refusingWorld freshState).trace =
        [.isEnabled, .connectError, .databaseUnlocked, .addIdentity ⟨1⟩ 7,
          .addIdentity ⟨13⟩ 7, .emitError "agent refused operation",
          .write .STDERR (msgAddFailed "agent refused operation"),
          .write .STDOUT msgWaiting, .sigprocmaskBlock, .sigwait 0, .sigprocmaskUnblock,
          .databaseLocked, .write .STDOUT msgRemoved]
    ∧ (executeWithDatabase refusingWorld freshState).state.agent = []
    ∧ (executeWithDatabase refusingWorld freshState).status = some EXIT_SUCCESS
    ∧ (executeWithDatabase refusingWorld freshState).status ≠ some EXIT_FAILURE
    ∧ (executeWithDatabase refusedEntryWorld freshState).trace =
        [.isEnabled, .argsAt 1, .findEntryByPath "Servers/db01", .fromEntry, .toOpenSSHKey,
          .addIdentity ⟨13⟩ 7, .errorString,
          .write .STDERR (msgAddFailed "agent refused operation")]
    ∧ (executeWithDatabase refusedEntryWorld freshState).status = some EXIT_FAILURE := by
  decide

/-- Claim C3 fails as stated: entered with `SIGINT` already blocked,
    `waitForQuitSignal` returns with `SIGINT` unblocked. -/
theorem waitForQuitSignal_mask_not_restored :
    (waitForQuitSignal 0 {SIGINT}).sigmask = ∅
    ∧ (waitForQuitSignal 0 {SIGINT}).sigmask ≠ {SIGINT} := by
  decide

/-- Claim C3, amended.  For every prior mask and either outcome of the wait,
    the mask after `waitForQuitSignal` is the prior mask with `SIGQUIT`, `SIGINT`,
    `SIGTERM` and `SIGHUP` removed; it equals the prior mask exactly when none of
    the four was blocked before the call. -/
theorem waitForQuitSignal_unblocks (r : Int) (mask : sigset_t) :
    (waitForQuitSignal r mask).sigmask = mask \ quitSignals
    ∧ ((waitForQuitSignal r mask).sigmask = mask ↔ Disjoint mask quitSignals)
    ∧ quitSignals = {SIGQUIT, SIGINT, SIGTERM, SIGHUP} := by
  refine ⟨waitForQuitSignal_mask r mask, ?_, ?_⟩
  · rw [waitForQuitSignal_mask]; exact Finset.sdiff_eq_self_iff_disjoint
  · decide

/-- Claim C4 against the code: when `sigwait` fails with error number 22
    (`EINVAL`), `waitForQuitSignal` returns `true`, `executeWithDatabase` returns
    `EXIT_SUCCESS` and nothing is written on the error stream; in general
    `waitForQuitSignal` returns `true` exactly when `sigwait` returned a value other
    than `-1`. -/
theorem sigwait_error_undetected :
    (waitForQuitSignal 22 ∅).ret = true
    ∧ (executeWithDatabase { sampleWorld with sigwaitResult := 22 } freshState).status
        = some EXIT_SUCCESS
    ∧ linesOn .STDERR
        (executeWithDatabase { sampleWorld with sigwaitResult := 22 } freshState).trace = []
    ∧ (∀ (r : Int) (mask : sigset_t), (waitForQuitSignal r mask).ret = true ↔ r ≠ -1) := by
  refine ⟨by decide, by decide, by decide, ?_⟩
  intro r mask
  simp [waitForQuitSignal]

/-- Claim C5 fails as stated: in the run of the sample world the call of
    `addIdentity` has no `sigprocmask(SIG_BLOCK)` before it (the block comes
    later) and is made with an empty signal mask. -/
theorem add_before_block :
    ∃ pre post,
      (executeWithDatabase sampleWorld freshState).trace
          = pre ++ Event.addIdentity ⟨1⟩ 7 :: post
      ∧ Event.sigprocmaskBlock ∉ pre
      ∧ Event.sigprocmaskBlock ∈ post
      ∧ maskAfter freshState.sigmask pre = ∅ :=
  ⟨[.isEnabled, .argsAt 1, .findEntryByPath "Servers/db01", .fromEntry, .toOpenSSHKey],
    [.write .STDOUT msgWaiting, .sigprocmaskBlock, .sigwait 0, .sigprocmaskUnblock,
      .databaseLocked, .write .STDOUT msgRemoved],
    by decide, by decide, by decide, by decide⟩

/-- Claim C5, amended.  In every trace, no `sigprocmask(SIG_BLOCK)` precedes a
    step that adds an identity (`addIdentity` or `databaseUnlocked`): the signal
    mask at that step is the mask the call was entered with, and the block step,
    when the run has one, comes after it. -/
theorem adds_precede_block (w : World) (st : State) (pre post : List Event) (e : Event)
    (hsplit : (executeWithDatabase w st).trace = pre ++ e :: post)
    (hadd : e.isAdd = true) :
    Event.sigprocmaskBlock ∉ pre
    ∧ maskAfter st.sigmask pre = st.sigmask
    ∧ (Event.sigprocmaskBlock ∈ (executeWithDatabase w st).trace →
        Event.sigprocmaskBlock ∈ post) := by
  obtain ⟨A, B, hAB, hA, hB⟩ := trace_shape w st
  rw [hAB] at hsplit
  have heB : e ∉ B := fun h => by simp [hB e h] at hadd
  obtain ⟨rest, hrest⟩ := split_in_front hsplit heB
  have hpre : ∀ x ∈ pre, x ≠ Event.sigprocmaskBlock ∧ x ≠ .sigprocmaskUnblock :=
    fun x hx => hA x (by rw [hrest]; simp [hx])
  refine ⟨fun h => (hpre _ h).1 rfl, maskAfter_quiet _ _ hpre, ?_⟩
  intro hmem
  rw [hAB, hsplit] at hmem
  simp only [List.mem_append, List.mem_cons] at hmem
  rcases hmem with h | h | h
  · exact absurd rfl (hpre _ h).1
  · subst h; simp [Event.isAdd] at hadd
  · exact h

/-- Claim C5 (amended) at the sample world, split at its call of `addIdentity`. -/
theorem adds_precede_block_witness :
    Event.sigprocmaskBlock ∉
        [Event.isEnabled, .argsAt 1, .findEntryByPath "Servers/db01", .fromEntry, .toOpenSSHKey]
    ∧ maskAfter freshState.sigmask
        [Event.isEnabled, .argsAt 1, .findEntryByPath "Servers/db01", .fromEntry, .toOpenSSHKey]
        = freshState.sigmask :=
  have h := adds_precede_block sampleWorld freshState
    [.isEnabled, .argsAt 1, .findEntryByPath "Servers/db01", .fromEntry, .toOpenSSHKey]
    [.write .STDOUT msgWaiting, .sigprocmaskBlock, .sigwait 0, .sigprocmaskUnblock,
      .databaseLocked, .write .STDOUT msgRemoved]
    (.addIdentity ⟨1⟩ 7) (by decide) rfl
  ⟨h.1, h.2.1⟩

/-- Claim C6.  When `isEnabled()` is false, whatever the arguments, database and
    other collaborators, the run is exactly the query followed by the not-enabled
    line on the error stream: no identity is added, no step of `waitForQuitSignal`
    occurs, the exit status is `EXIT_FAILURE`, the state is unchanged, and a second
    call from the resulting state yields the same run. -/
theorem disabled_agent_short_circuit (w : World) (st : State) (h : w.isEnabled = false) :
    (executeWithDatabase w st).status = some EXIT_FAILURE
    ∧ (executeWithDatabase w st).trace = [.isEnabled, .write .STDERR msgNotEnabled]
    ∧ (∀ e ∈ (executeWithDatabase w st).trace, e.isAdd = false)
    ∧ (∀ e ∈ (executeWithDatabase w st).trace,
        e ≠ .sigprocmaskBlock ∧ (∀ r, e ≠ .sigwait r) ∧ e ≠ .sigprocmaskUnblock)
    ∧ linesOn .STDERR (executeWithDatabase w st).trace = [msgNotEnabled]
    ∧ (executeWithDatabase w st).state = st
    ∧ executeWithDatabase w (executeWithDatabase w st).state = executeWithDatabase w st := by
  simp [run_disabled w _ h, Event.isAdd, linesOn]

/-- Claim C6 at the sample world with the agent disabled. -/
theorem disabled_agent_short_circuit_witness :
    ({ sampleWorld with isEnabled := false } : World).isEnabled = false
    ∧ (executeWithDatabase { sampleWorld with isEnabled := false } freshState).status
        = some EXIT_FAILURE
    ∧ executeWithDatabase { sampleWorld with isEnabled := false }
          (executeWithDatabase { sampleWorld with isEnabled := false } freshState).state
        = executeWithDatabase { sampleWorld with isEnabled := false } freshState :=
  ⟨rfl, (disabled_agent_short_circuit { sampleWorld with isEnabled := false } freshState rfl).1,
    (disabled_agent_short_circuit { sampleWorld with isEnabled := false } freshState
      rfl).2.2.2.2.2.2⟩

/-- Claim C7 fails as stated: for a path matching no entry the trace opens with
    the agent call `isEnabled()`, before the failure is reported; and when the
    agent is disabled the not-enabled failure is produced instead of the
    not-found one. -/
theorem notFound_agent_called_first :
    missingWorld.findEntryByPath "Servers/none" = none
    ∧ (executeWithDatabase missingWorld freshState).trace =
        [.isEnabled, .argsAt 1, .findEntryByPath "Servers/none",
          .write .STDERR (msgNotFound "Servers/none")]
    ∧ Event.isAgentCall .isEnabled = true
    ∧ (executeWithDatabase { missingWorld with isEnabled := false } freshState).trace =
        [.isEnabled, .write .STDERR msgNotEnabled] := by
  decide

/-- Claim C7, amended.  With the agent enabled, an entry path matching no entry
    yields `EXIT_FAILURE` and the not-found line on the error stream; the only
    call on the agent in the whole trace is the `isEnabled()` query that opens
    it, and the state is unchanged. -/
theorem notFound_after_isEnabled (w : World) (st : State) (entryPath : String)
    (hen : w.isEnabled = true) (hlen : w.args.length ≠ 1)
    (hpath : w.args[1]? = some entryPath)
    (hfind : w.findEntryByPath entryPath = none) :
    (executeWithDatabase w st).status = some EXIT_FAILURE
    ∧ (executeWithDatabase w st).trace =
        [.isEnabled, .argsAt 1, .findEntryByPath entryPath,
          .write .STDERR (msgNotFound entryPath)]
    ∧ (executeWithDatabase w st).trace.filter Event.isAgentCall = [.isEnabled]
    ∧ linesOn .STDERR (executeWithDatabase w st).trace = [msgNotFound entryPath]
    ∧ (executeWithDatabase w st).state = st := by
  have hrun : executeWithDatabase w st = ⟨some EXIT_FAILURE, st,
      [.isEnabled, .argsAt 1, .findEntryByPath entryPath,
        .write .STDERR (msgNotFound entryPath)]⟩ := by
    simp [executeWithDatabase, hen, hlen, hpath, hfind]
  rw [hrun]
  simp [linesOn, Event.isAgentCall, List.filter]

/-- Claim C7 (amended) at the world whose entry path matches no entry. -/
theorem notFound_after_isEnabled_witness :
    (executeWithDatabase missingWorld freshState).status = some EXIT_FAILURE
    ∧ (executeWithDatabase missingWorld freshState).trace.filter Event.isAgentCall
        = [.isEnabled] :=
  have h := notFound_after_isEnabled missingWorld freshState "Servers/none" rfl (by decide) rfl rfl
  ⟨h.1, h.2.2.1⟩

/-- Claim C8.  For an entry path resolving to an entry with a valid identity,
    when `addIdentity` succeeds and `sigwait` returns on a signal, the exit status
    is `EXIT_SUCCESS`, the key was registered under `database->uuid()`, and on
    return the agent holds no identity of that owner: the state is what
    `databaseLocked` leaves. -/
theorem single_identity_removed (w : World) (st : State) (entryPath : String) (entry : Entry)
    (settings : KeeAgentSettings) (key : OpenSSHKey)
    (hen : w.isEnabled = true) (hlen : w.args.length ≠ 1)
    (hpath : w.args[1]? = some entryPath)
    (hfind : w.findEntryByPath entryPath = some entry)
    (hfrom : w.fromEntry entry = some settings)
    (hkey : w.toOpenSSHKey settings entry = some key)
    (hadd : (addIdentity w key settings w.uuid st.agent).1 = true)
    (hsig : w.sigwaitResult = 0) :
    (executeWithDatabase w st).status = some EXIT_SUCCESS
    ∧ (key, w.uuid) ∈ (addIdentity w key settings w.uuid st.agent).2
    ∧ (executeWithDatabase w st).state.agent
        = databaseLocked w (addIdentity w key settings w.uuid st.agent).2
    ∧ (key, w.uuid) ∉ (executeWithDatabase w st).state.agent
    ∧ (executeWithDatabase w st).state.agent.filter (fun identity => identity.2 = w.uuid) = []
    ∧ (executeWithDatabase w st).trace =
        [.isEnabled, .argsAt 1, .findEntryByPath entryPath, .fromEntry, .toOpenSSHKey,
          .addIdentity key w.uuid, .write (outChannel w) msgWaiting, .sigprocmaskBlock,
          .sigwait 0, .sigprocmaskUnblock, .databaseLocked, .write (outChannel w) msgRemoved] := by
  have hacc : w.agentAccepts key = true := by
    unfold addIdentity at hadd
    split at hadd
    · assumption
    · simp at hadd
  have hrun : executeWithDatabase w st =
      waitAndCleanup w { st with agent := st.agent ++ [(key, w.uuid)] }
        [.isEnabled, .argsAt 1, .findEntryByPath entryPath, .fromEntry, .toOpenSSHKey,
          .addIdentity key w.uuid] := by
    simp [executeWithDatabase, hen, hlen, hpath, hfind, hfrom, hkey, addIdentity, hacc]
  rw [hrun]
  refine ⟨?_, ?_, ?_, ?_, ?_, ?_⟩
  · rw [waitAndCleanup_status]; simp [waitForQuitSignal, hsig]
  · simp [addIdentity, hacc]
  · simp [waitAndCleanup, addIdentity, hacc]
  · simp [waitAndCleanup, databaseLocked]
  · simp [waitAndCleanup, databaseLocked, List.filter_filter]
  · rw [waitAndCleanup_trace]; simp [waitForQuitSignal, hsig]

/-- Claim C8 at the sample world, from an agent already holding one identity of
    the same owner and one of another owner. -/
theorem single_identity_removed_witness :
    (executeWithDatabase sampleWorld { agent := [(⟨5⟩, 7), (⟨6⟩, 8)], sigmask := ∅ }).status
        = some EXIT_SUCCESS
    ∧ (executeWithDatabase sampleWorld { agent := [(⟨5⟩, 7), (⟨6⟩, 8)], sigmask := ∅ }).state.agent
        = [(⟨6⟩, 8)] :=
  have h := single_identity_removed sampleWorld { agent := [(⟨5⟩, 7), (⟨6⟩, 8)], sigmask := ∅ } "Servers/db01" ⟨1⟩ ⟨0⟩ ⟨1⟩
    rfl (by decide) rfl rfl rfl rfl rfl rfl
  ⟨h.1, by decide⟩

/-- Claim C9.  A call returning `EXIT_FAILURE` wrote at least one line on the
    error stream; the quiet option changes neither the exit status nor the lines
    on the error stream; a call with an entry path that returns `EXIT_SUCCESS`
    wrote nothing on the error stream. -/
theorem failure_reported_on_stderr (w : World) (st : State) :
    ((executeWithDatabase w st).status = some EXIT_FAILURE →
      linesOn .STDERR (executeWithDatabase w st).trace ≠ [])
    ∧ (∀ q : Bool,
        (executeWithDatabase { w with quiet := q } st).status = (executeWithDatabase w st).status
        ∧ linesOn .STDERR (executeWithDatabase { w with quiet := q } st).trace
            = linesOn .STDERR (executeWithDatabase w st).trace)
    ∧ (2 ≤ w.args.length → (executeWithDatabase w st).status = some EXIT_SUCCESS →
        linesOn .STDERR (executeWithDatabase w st).trace = []) := by
  refine ⟨?_, fun q => ⟨(stderr_quiet w q st).2, (stderr_quiet w q st).1⟩, ?_⟩
  · have hp := executeWithDatabase_path w st
    generalize executeWithDatabase w st = r at hp
    intro hst
    cases hp with
    | disabled h => simp [linesOn]
    | outOfRange h1 h2 => simp at hst
    | notFound p h1 h2 h3 h4 => simp [linesOn]
    | noSettings p e h1 h2 h3 h4 h5 => simp [linesOn]
    | noKey p e s h1 h2 h3 h4 h5 h6 => simp [linesOn]
    | addFailed p e s k h1 h2 h3 h4 h5 h6 h7 => simp [linesOn]
    | autoLoad h1 h2 =>
      rw [waitAndCleanup_status] at hst
      rw [stderr_waitAndCleanup]
      revert hst
      cases (waitForQuitSignal w.sigwaitResult _).ret <;> simp [EXIT_SUCCESS, EXIT_FAILURE]
    | added p e s k h1 h2 h3 h4 h5 h6 h7 =>
      rw [waitAndCleanup_status] at hst
      rw [stderr_waitAndCleanup]
      revert hst
      cases (waitForQuitSignal w.sigwaitResult _).ret <;> simp [EXIT_SUCCESS, EXIT_FAILURE]
  · have hp := executeWithDatabase_path w st
    generalize executeWithDatabase w st = r at hp
    intro hlen hst
    cases hp with
    | disabled h => simp [EXIT_SUCCESS, EXIT_FAILURE] at hst
    | outOfRange h1 h2 => simp at hst
    | notFound p h1 h2 h3 h4 => simp [EXIT_SUCCESS, EXIT_FAILURE] at hst
    | noSettings p e h1 h2 h3 h4 h5 => simp [EXIT_SUCCESS, EXIT_FAILURE] at hst
    | noKey p e s h1 h2 h3 h4 h5 h6 => simp [EXIT_SUCCESS, EXIT_FAILURE] at hst
    | addFailed p e s k h1 h2 h3 h4 h5 h6 h7 => simp [EXIT_SUCCESS, EXIT_FAILURE] at hst
    | autoLoad h1 h2 => omega
    | added p e s k h1 h2 h3 h4 h5 h6 h7 =>
      rw [waitAndCleanup_status] at hst
      rw [stderr_waitAndCleanup]
      revert hst
      cases (waitForQuitSignal w.sigwaitResult _).ret <;>
        simp [EXIT_SUCCESS, EXIT_FAILURE, linesOn]

/-- Claim C9 at the sample world run quietly with a failing wait. -/
theorem failure_reported_on_stderr_witness :
    (executeWithDatabase { sampleWorld with quiet := true, sigwaitResult := -1 } freshState).status
        = some EXIT_FAILURE
    ∧ linesOn .STDERR
        (executeWithDatabase { sampleWorld with quiet := true, sigwaitResult := -1 } freshState).trace
        ≠ [] :=
  ⟨by decide, (failure_reported_on_stderr { sampleWorld with quiet := true, sigwaitResult := -1 } freshState).1 (by decide)⟩

/-- Claim C10.  With the agent enabled, the out-of-range access is reached exactly
    when the argument list is empty; with at least one argument it is not
    reached and `args.at(1)` is evaluated only when there are two or more; a
    list of length 1 takes the auto-load branch and a list of length 2 looks up
    its second element as entry path. -/
theorem args_at_in_bounds (w : World) (st : State) (hen : w.isEnabled = true) :
    ((executeWithDatabase w st).status = none ↔ w.args = [])
    ∧ (1 ≤ w.args.length →
        (executeWithDatabase w st).status ≠ none
        ∧ (Event.argsAt 1 ∈ (executeWithDatabase w st).trace → 2 ≤ w.args.length))
    ∧ (w.args.length = 1 →
        Event.databaseUnlocked ∈ (executeWithDatabase w st).trace
        ∧ Event.argsAt 1 ∉ (executeWithDatabase w st).trace
        ∧ ∀ path, Event.findEntryByPath path ∉ (executeWithDatabase w st).trace)
    ∧ (∀ a b, w.args = [a, b] →
        Event.argsAt 1 ∈ (executeWithDatabase w st).trace
        ∧ Event.findEntryByPath b ∈ (executeWithDatabase w st).trace
        ∧ Event.databaseUnlocked ∉ (executeWithDatabase w st).trace) := by
  have hp := executeWithDatabase_path w st
  generalize executeWithDatabase w st = r at hp
  have hne := outChannel_ne_stderr w
  cases hp with
  | disabled h => simp [hen] at h
  | outOfRange h1 h2 => simp [h2]
  | notFound p h1 h2 h3 h4 =>
    refine ⟨?_, ?_, ?_, ?_⟩
    · simp; intro h; simp [h] at h2
    · intro _; simp [h2]
    · intro h; omega
    · intro a b hab; simp [hab] at h3; simp [h3]
  | noSettings p e h1 h2 h3 h4 h5 =>
    refine ⟨?_, ?_, ?_, ?_⟩
    · simp; intro h; simp [h] at h2
    · intro _; simp [h2]
    · intro h; omega
    · intro a b hab; simp [hab] at h3; simp [h3]
  | noKey p e s h1 h2 h3 h4 h5 h6 =>
    refine ⟨?_, ?_, ?_, ?_⟩
    · simp; intro h; simp [h] at h2
    · intro _; simp [h2]
    · intro h; omega
    · intro a b hab; simp [hab] at h3; simp [h3]
  | addFailed p e s k h1 h2 h3 h4 h5 h6 h7 =>
    refine ⟨?_, ?_, ?_, ?_⟩
    · simp; intro h; simp [h] at h2
    · intro _; simp [h2]
    · intro h; omega
    · intro a b hab; simp [hab] at h3; simp [h3]
  | added p e s k h1 h2 h3 h4 h5 h6 h7 =>
    refine ⟨?_, ?_, ?_, ?_⟩
    · rw [waitAndCleanup_status]; simp; intro h; simp [h] at h2
    · intro _; rw [waitAndCleanup_status]; simp [h2]
    · intro h; omega
    · intro a b hab
      simp [hab] at h3
      subst h3
      refine ⟨before_sub_waitAndCleanup_trace _ _ _ _ (by simp),
        before_sub_waitAndCleanup_trace _ _ _ _ (by simp), ?_⟩
      intro hmem
      have := mem_waitAndCleanup_trace _ _ _ _ hmem
      simp at this
  | autoLoad h1 h2 =>
    have hnot : ∀ e : Event, e ∈ (waitAndCleanup w
          { st with agent := (databaseUnlocked w errorSlot w.autoLoad st.agent).1 }
          ([.isEnabled, .connectError, .databaseUnlocked]
            ++ (databaseUnlocked w errorSlot w.autoLoad st.agent).2)).trace →
        e ≠ .argsAt 1 ∧ ∀ path, e ≠ .findEntryByPath path := by
      intro e hmem
      have h := mem_waitAndCleanup_trace _ _ _ _ hmem
      simp only [List.mem_append, List.mem_cons, List.mem_singleton, List.not_mem_nil,
        or_false] at h
      rcases h with ((h | h | h) | h) | h | h | h | h | h | h | h
      any_goals (subst h; simp)
      have := unlocked_not_locked w _ _ e h
      exact ⟨this.2.2.2.2.2.2 1, this.2.2.2.2.2.1⟩
    refine ⟨?_, ?_, ?_, ?_⟩
    · rw [waitAndCleanup_status]; simp; intro h; simp [h] at h2
    · intro _
      rw [waitAndCleanup_status]
      refine ⟨by simp, ?_⟩
      intro hmem
      exact absurd rfl (hnot _ hmem).1
    · intro _
      refine ⟨before_sub_waitAndCleanup_trace _ _ _ _ (by simp), ?_, ?_⟩
      · intro hmem; exact absurd rfl (hnot _ hmem).1
      · intro path hmem; exact absurd rfl ((hnot _ hmem).2 path)
    · intro a b hab; simp [hab] at h2

/-- Claim C10 at the sample world. -/
theorem args_at_in_bounds_witness :
    sampleWorld.isEnabled = true ∧ 1 ≤ sampleWorld.args.length
    ∧ (executeWithDatabase sampleWorld freshState).status ≠ none
    ∧ Event.findEntryByPath "Servers/db01" ∈ (executeWithDatabase sampleWorld freshState).trace :=
  ⟨rfl, by decide, ((args_at_in_bounds sampleWorld freshState rfl).2.1 (by decide)).1,
    ((args_at_in_bounds sampleWorld freshState rfl).2.2.2 "db.kdbx" "Servers/db01" rfl).2.1⟩

end SSHAgentPopulate
